import Mathlib

/-!
Verification of the appointment scheduling core of the sbbooking
repository.  The appointment store is a list of rows; times are naive
instants modelled as naturals (milliseconds since epoch); ids are
naturals (Postgres `serial` values, which start at 1).  The operations
are shallow embeddings of the Express route handlers in
`server/routes.ts` and the `DatabaseStorage` methods of the storage
layer.
-/

namespace SBB

/-- An appointment row (table `appointments` in `shared/schema.ts`).
`createdAt` is omitted (never read by any modelled operation);
`updatedAt` is kept because `updateAppointment` writes it. -/
structure Appt where
  id : Nat
  patientId : Nat
  staffId : Nat
  serviceId : Nat
  startTime : Nat
  endTime : Nat
  status : String
  updatedAt : Nat
deriving DecidableEq, Repr

/-- The optional `excludeId` filter of `checkAppointmentConflicts`:
`excludeId ? sql(id != excludeId) : undefined` — the clause is added
only when `excludeId` is truthy (present and nonzero, since `0` is
falsy in JavaScript). -/
def exclClause (excludeId : Option Nat) (aid : Nat) : Bool :=
  match excludeId with
  | some e => if e = 0 then true else aid ≠ e
  | none => true

/-- One row of the WHERE clause of `DatabaseStorage.checkAppointmentConflicts`:
`(staffId = S OR patientId = P) AND (startTime < end AND endTime > start)`
plus the optional id exclusion.  There is no filter on `status`. -/
def conflictsWith (staffId patientId startTime endTime : Nat)
    (excludeId : Option Nat) (a : Appt) : Bool :=
  (a.staffId = staffId || a.patientId = patientId)
    && (a.startTime < endTime && a.endTime > startTime)
    && exclClause excludeId a.id

/-- `DatabaseStorage.checkAppointmentConflicts`: selects the matching
rows and reports `conflicts.length > 0`. -/
def checkAppointmentConflicts (appts : List Appt)
    (staffId patientId startTime endTime : Nat)
    (excludeId : Option Nat) : Bool :=
  (appts.filter (conflictsWith staffId patientId startTime endTime excludeId)).length > 0

/-- The next `serial` id assigned by the database on insert: one more
than the largest id in the table (and at least 1). -/
def freshId (appts : List Appt) : Nat :=
  appts.foldr (fun a m => max a.id m) 0 + 1

/-- The body accepted by `insertAppointmentSchema` (id, createdAt and
updatedAt omitted; the zod schema applies the column default
`"scheduled"` when `status` is absent, so the parsed value always
carries a status string). -/
structure InsertAppt where
  patientId : Nat
  staffId : Nat
  serviceId : Nat
  startTime : Nat
  endTime : Nat
  status : String
deriving DecidableEq, Repr

/-- `DatabaseStorage.createAppointment`: insert with a fresh serial id;
`createdAt`/`updatedAt` take their column defaults (`now`). -/
def createAppointment (appts : List Appt) (ins : InsertAppt) (now : Nat) :
    Appt × List Appt :=
  let a : Appt :=
    { id := freshId appts
      patientId := ins.patientId
      staffId := ins.staffId
      serviceId := ins.serviceId
      startTime := ins.startTime
      endTime := ins.endTime
      status := ins.status
      updatedAt := now }
  (a, appts ++ [a])

/-- Outcome of `POST /api/appointments`: HTTP 409 on conflict, 201 with
the created row otherwise. -/
inductive PostResult where
  | conflict : PostResult
  | created : Appt → PostResult
deriving DecidableEq, Repr

def PostResult.isCreated : PostResult → Bool
  | .conflict => false
  | .created _ => true

/-- The `POST /api/appointments` handler in `server/routes.ts`: run
`checkAppointmentConflicts` (no `excludeId`), reject with 409 on
conflict, otherwise persist via `createAppointment`. -/
def postAppointment (appts : List Appt) (ins : InsertAppt) (now : Nat) :
    PostResult × List Appt :=
  if checkAppointmentConflicts appts ins.staffId ins.patientId
      ins.startTime ins.endTime none then
    (.conflict, appts)
  else
    let r := createAppointment appts ins now
    (.created r.1, r.2)

/-- The raw body of `PUT /api/appointments/:id`; absent JSON keys are
`none`.  Time values travel as nonempty ISO strings so a present time
is always truthy; id values are JSON numbers, where `0` is falsy. -/
structure UpdateAppt where
  patientId : Option Nat
  staffId : Option Nat
  serviceId : Option Nat
  startTime : Option Nat
  endTime : Option Nat
  status : Option String
deriving DecidableEq, Repr

/-- JavaScript truthiness of an optional numeric id field (`0` is falsy). -/
def idTruthy (o : Option Nat) : Bool :=
  match o with
  | some v => v ≠ 0
  | none => false

/-- JavaScript truthiness of an optional time field (a present ISO
string is nonempty, hence truthy). -/
def timeTruthy (o : Option Nat) : Bool :=
  o.isSome

/-- `appointmentData.staffId || existing.staffId` for numeric fields. -/
def mergeId (o : Option Nat) (old : Nat) : Nat :=
  match o with
  | some v => if v = 0 then old else v
  | none => old

/-- `appointmentData.startTime || existing.startTime` for time fields
(a present ISO string is truthy). -/
def mergeTime (o : Option Nat) (old : Nat) : Nat :=
  o.getD old

/-- The `.set({...updateAppointment, updatedAt: new Date()})` of
`DatabaseStorage.updateAppointment` applied to one row: present fields
overwrite, `updatedAt` is refreshed, everything else is kept. -/
def applyUpdate (u : UpdateAppt) (now : Nat) (a : Appt) : Appt :=
  { a with
    patientId := u.patientId.getD a.patientId
    staffId := u.staffId.getD a.staffId
    serviceId := u.serviceId.getD a.serviceId
    startTime := u.startTime.getD a.startTime
    endTime := u.endTime.getD a.endTime
    status := u.status.getD a.status
    updatedAt := now }

/-- `DatabaseStorage.updateAppointment`: UPDATE ... WHERE id = :id. -/
def updateAppointment (appts : List Appt) (id : Nat) (u : UpdateAppt)
    (now : Nat) : List Appt :=
  appts.map (fun a => if a.id = id then applyUpdate u now a else a)

/-- `DatabaseStorage.getAppointment`: first row with the given id. -/
def getAppointment (appts : List Appt) (id : Nat) : Option Appt :=
  appts.find? (fun a => a.id = id)

/-- Outcome of `PUT /api/appointments/:id`: 409 on conflict, 200 after
the update otherwise. -/
inductive PutResult where
  | conflict : PutResult
  | updated : PutResult
deriving DecidableEq, Repr

/-- The `PUT /api/appointments/:id` handler in `server/routes.ts`:
when any of startTime/endTime/staffId/patientId is (truthily) present
and the appointment exists, check conflicts for the merged parameters
excluding the appointment's own id; reject with 409 on conflict;
otherwise apply `updateAppointment`. -/
def putAppointment (appts : List Appt) (id : Nat) (u : UpdateAppt)
    (now : Nat) : PutResult × List Appt :=
  if timeTruthy u.startTime || timeTruthy u.endTime
      || idTruthy u.staffId || idTruthy u.patientId then
    match getAppointment appts id with
    | some ex =>
      if checkAppointmentConflicts appts
          (mergeId u.staffId ex.staffId) (mergeId u.patientId ex.patientId)
          (mergeTime u.startTime ex.startTime) (mergeTime u.endTime ex.endTime)
          (some id) then
        (.conflict, appts)
      else
        (.updated, updateAppointment appts id u now)
    | none => (.updated, updateAppointment appts id u now)
  else
    (.updated, updateAppointment appts id u now)

/-! ## Calendar queries (`DatabaseStorage` read path) -/

/-- Ascending comparison on `startTime`, the `orderBy(asc(appointments.startTime))`
of `getAppointmentsByDateRange`. -/
def byStartAsc (a b : Appt) : Prop :=
  a.startTime ≤ b.startTime

instance : DecidableRel byStartAsc :=
  fun a b => Nat.decLe a.startTime b.startTime

instance : IsTotal Appt byStartAsc :=
  ⟨fun a b => Nat.le_total a.startTime b.startTime⟩

instance : IsTrans Appt byStartAsc :=
  ⟨fun _ _ _ h1 h2 => Nat.le_trans h1 h2⟩

/-- Descending comparison on `startTime`, the `orderBy(desc(appointments.startTime))`
of `getAppointmentsByStaff` and `getAppointmentsByPatient`. -/
def byStartDesc (a b : Appt) : Prop :=
  b.startTime ≤ a.startTime

instance : DecidableRel byStartDesc :=
  fun a b => Nat.decLe b.startTime a.startTime

instance : IsTotal Appt byStartDesc :=
  ⟨fun a b => (Nat.le_total b.startTime a.startTime)⟩

instance : IsTrans Appt byStartDesc :=
  ⟨fun _ _ _ h1 h2 => Nat.le_trans h2 h1⟩

/-- `DatabaseStorage.getAppointmentsByDateRange`: rows with
`startDate <= startTime AND startTime <= endDate` (both endpoints
inclusive; the filter looks only at `startTime`), ordered by
`startTime` ascending. -/
def getAppointmentsByDateRange (appts : List Appt) (startDate endDate : Nat) :
    List Appt :=
  List.insertionSort byStartAsc
    (appts.filter (fun a => startDate ≤ a.startTime && a.startTime ≤ endDate))

/-- `DatabaseStorage.getAppointmentsByStaff`: all rows of the staff
member, any status, no date filter, ordered by `startTime` descending. -/
def getAppointmentsByStaff (appts : List Appt) (staffId : Nat) : List Appt :=
  List.insertionSort byStartDesc (appts.filter (fun a => a.staffId = staffId))

/-- `DatabaseStorage.getAppointmentsByPatient`: all rows of the patient,
any status, no date filter, ordered by `startTime` descending. -/
def getAppointmentsByPatient (appts : List Appt) (patientId : Nat) : List Appt :=
  List.insertionSort byStartDesc (appts.filter (fun a => a.patientId = patientId))

/-! ## Entity tables (staff, patients, services) -/

/-- A row of the `staff` table (`shared/schema.ts`); the JSON
availability blob is kept opaque. -/
structure StaffRow where
  id : Nat
  userId : Option Nat
  firstName : String
  lastName : String
  email : String
  phone : Option String
  role : String
  isActive : Bool
  availability : Option String
  createdAt : Nat
  updatedAt : Nat
deriving DecidableEq, Repr

/-- A row of the `patients` table (`shared/schema.ts`). -/
structure PatientRow where
  id : Nat
  firstName : String
  lastName : String
  email : Option String
  phone : Option String
  dateOfBirth : Option Nat
  address : Option String
  insuranceInfo : Option String
  medicalHistory : Option String
  isActive : Bool
  createdAt : Nat
  updatedAt : Nat
deriving DecidableEq, Repr

/-- A row of the `services` table (`shared/schema.ts`): `duration` in
minutes, `capacity` max simultaneous occupants, `isGroup` flag. -/
structure ServiceRow where
  id : Nat
  name : String
  description : Option String
  categoryId : Option Nat
  duration : Nat
  capacity : Nat
  price : Option String
  isGroup : Bool
  isActive : Bool
  rules : Option String
  createdAt : Nat
  updatedAt : Nat
deriving DecidableEq, Repr

/-- The database tables touched by the CRUD storage methods under
verification. -/
structure DB where
  staffTable : List StaffRow
  patientTable : List PatientRow
  serviceTable : List ServiceRow
  appointmentTable : List Appt
deriving DecidableEq, Repr

/-- `DatabaseStorage.deleteStaff`: UPDATE staff SET is_active = false
WHERE id = :id (no other column is written, not even `updatedAt`). -/
def deleteStaff (db : DB) (id : Nat) : DB :=
  { db with
    staffTable := db.staffTable.map
      (fun r => if r.id = id then { r with isActive := false } else r) }

/-- `DatabaseStorage.deletePatient`: UPDATE patients SET is_active = false
WHERE id = :id. -/
def deletePatient (db : DB) (id : Nat) : DB :=
  { db with
    patientTable := db.patientTable.map
      (fun r => if r.id = id then { r with isActive := false } else r) }

/-- `DatabaseStorage.deleteService`: UPDATE services SET is_active = false
WHERE id = :id. -/
def deleteService (db : DB) (id : Nat) : DB :=
  { db with
    serviceTable := db.serviceTable.map
      (fun r => if r.id = id then { r with isActive := false } else r) }

/-- Ordering on staff first names used by `getAllStaff`
(`orderBy(asc(staff.firstName))`). -/
def byFirstNameStaff (a b : StaffRow) : Prop :=
  a.firstName ≤ b.firstName

instance : DecidableRel byFirstNameStaff :=
  fun a b => inferInstanceAs (Decidable (a.firstName ≤ b.firstName))

/-- Ordering on patient first names used by `getAllPatients`. -/
def byFirstNamePatient (a b : PatientRow) : Prop :=
  a.firstName ≤ b.firstName

instance : DecidableRel byFirstNamePatient :=
  fun a b => inferInstanceAs (Decidable (a.firstName ≤ b.firstName))

/-- Ordering on service names used by `getAllServices`. -/
def byServiceName (a b : ServiceRow) : Prop :=
  a.name ≤ b.name

instance : DecidableRel byServiceName :=
  fun a b => inferInstanceAs (Decidable (a.name ≤ b.name))

/-- `DatabaseStorage.getAllStaff`: active rows only, ordered by first
name ascending. -/
def getAllStaff (db : DB) : List StaffRow :=
  List.insertionSort byFirstNameStaff (db.staffTable.filter (fun r => r.isActive))

/-- `DatabaseStorage.getAllPatients`: active rows only, ordered by
first name ascending. -/
def getAllPatients (db : DB) : List PatientRow :=
  List.insertionSort byFirstNamePatient (db.patientTable.filter (fun r => r.isActive))

/-- `DatabaseStorage.getAllServices`: active rows only, ordered by name
ascending. -/
def getAllServices (db : DB) : List ServiceRow :=
  List.insertionSort byServiceName (db.serviceTable.filter (fun r => r.isActive))

/-! ## Availability (spec model) and the client end-time computation -/

/-- A wall-clock template window (minutes from midnight). -/
structure AvailWindow where
  startMin : Nat
  endMin : Nat
deriving DecidableEq, Repr

/-- Modelled from the spec: the Availability Resolver's template test.
The repository stores availability as an untyped JSON blob and contains
no resolver in src (the `GET /api/staff/:id/availability` route only
returns the raw blob, exclusions and the day's appointments to the
client); the spec's §4.2 step 2 accepts a candidate wall-clock range
only if some template window for its day-of-week fully contains it. -/
def templateAllows (template : Nat → List AvailWindow) (day sMin eMin : Nat) :
    Bool :=
  (template day).any (fun w => w.startMin ≤ sMin && eMin ≤ w.endMin)

/-- Modelled from the spec: the Availability Resolver's exclusion test
(§4.2 step 3) — reject when any exclusion interval overlaps the
candidate under the half-open overlap test. -/
def exclusionsBlock (exclusions : List (Nat × Nat)) (st en : Nat) : Bool :=
  exclusions.any (fun e => e.1 < en && st < e.2)

/-- Modelled from the spec: the overall Availability Resolver verdict —
unavailable when the template has no containing window for the
candidate's day-of-week wall-clock range, or some exclusion overlaps
the candidate's absolute interval. -/
def staffUnavailable (template : Nat → List AvailWindow)
    (exclusions : List (Nat × Nat)) (day sMin eMin st en : Nat) : Bool :=
  !templateAllows template day sMin eMin || exclusionsBlock exclusions st en

/-- The `BookingModal.onSubmit` end-time computation (client):
`endTime = startTime + (service?.duration || 60) * 60000` milliseconds,
where `service = services.find(s => s.id === serviceId)`. -/
def clientEndTime (startMs : Nat) (services : List ServiceRow)
    (serviceId : Nat) : Nat :=
  startMs +
    (match services.find? (fun s => s.id = serviceId) with
     | some s => if s.duration = 0 then 60 else s.duration
     | none => 60) * 60000

/-! ## Reachability and the scheduling invariant -/

/-- Foreign-key validity of a `PUT` body: a present `staffId` or
`patientId` must reference an existing row, hence carries a Postgres
`serial` id, which is at least 1 (an update with a dangling reference
is rejected by the database's FK constraint and leaves the table
unchanged). -/
def ValidUpd (u : UpdateAppt) : Prop :=
  (∀ v, u.staffId = some v → 1 ≤ v) ∧ (∀ v, u.patientId = some v → 1 ≤ v)

/-- States of the appointment table reachable from an empty table
through the two mutating appointment routes. -/
inductive Reachable : List Appt → Prop where
  | empty : Reachable []
  | post (s : List Appt) (ins : InsertAppt) (now : Nat) :
      Reachable s → Reachable (postAppointment s ins now).2
  | put (s : List Appt) (id : Nat) (u : UpdateAppt) (now : Nat) :
      Reachable s → ValidUpd u → Reachable (putAppointment s id u now).2

/-- The inductive invariant: serial ids are positive and duplicate-free,
and no two distinct rows sharing a staff id or a patient id — whatever
their status — have overlapping half-open intervals. -/
def StrongInv (l : List Appt) : Prop :=
  (∀ a ∈ l, 1 ≤ a.id) ∧ (l.map Appt.id).Nodup ∧
    ∀ a ∈ l, ∀ b ∈ l, a.id ≠ b.id →
      (a.staffId = b.staffId ∨ a.patientId = b.patientId) →
      ¬(a.startTime < b.endTime ∧ b.startTime < a.endTime)

theorem check_eq_false_iff {appts : List Appt} {sid pid st en : Nat}
    {excl : Option Nat} :
    checkAppointmentConflicts appts sid pid st en excl = false ↔
      ∀ a ∈ appts, conflictsWith sid pid st en excl a = false := by
  simp [checkAppointmentConflicts, List.length_eq_zero, List.filter_eq_nil_iff]

theorem conflictsWith_eq_false {sid pid st en : Nat} {excl : Option Nat}
    {a : Appt} (h : conflictsWith sid pid st en excl a = false)
    (hm : a.staffId = sid ∨ a.patientId = pid)
    (he : exclClause excl a.id = true) :
    ¬(a.startTime < en ∧ st < a.endTime) := by
  intro hov
  simp [conflictsWith, he, hov.1, hov.2, hm] at h
  rcases hm with hm | hm <;> simp [hm] at h

theorem mem_lt_freshId {appts : List Appt} {a : Appt} (h : a ∈ appts) :
    a.id < freshId appts := by
  have hle : a.id ≤ appts.foldr (fun a m => max a.id m) 0 := by
    induction h with
    | head l => exact Nat.le_max_left _ _
    | tail b hmem ih => exact Nat.le_trans ih (Nat.le_max_right _ _)
  exact Nat.lt_succ_of_le hle

theorem StrongInv_post (s : List Appt) (ins : InsertAppt) (now : Nat)
    (h : StrongInv s) : StrongInv (postAppointment s ins now).2 := by
  unfold postAppointment
  cases hc : checkAppointmentConflicts s ins.staffId ins.patientId
      ins.startTime ins.endTime none with
  | true => simpa [hc] using h
  | false =>
    simp only [hc, Bool.false_eq_true, if_false, createAppointment]
    obtain ⟨hpos, hnd, hpair⟩ := h
    have hall := check_eq_false_iff.mp hc
    set newA : Appt :=
      { id := freshId s, patientId := ins.patientId, staffId := ins.staffId
        serviceId := ins.serviceId, startTime := ins.startTime
        endTime := ins.endTime, status := ins.status, updatedAt := now } with hnewA
    refine ⟨?_, ?_, ?_⟩
    · intro a ha
      rcases List.mem_append.mp ha with ha | ha
      · exact hpos a ha
      · rcases List.mem_singleton.mp ha with rfl
        exact Nat.le_add_left 1 _
    · rw [List.map_append, List.nodup_append]
      refine ⟨hnd, List.nodup_singleton _, ?_⟩
      intro x hx hy
      rcases List.mem_singleton.mp hy with rfl
      rcases List.mem_map.mp hx with ⟨a, ha, heq⟩
      exact absurd heq (Nat.ne_of_lt (mem_lt_freshId ha))
    · intro a ha b hb hne hmatch
      rcases List.mem_append.mp ha with ha | ha <;>
        rcases List.mem_append.mp hb with hb | hb
      · exact hpair a ha b hb hne hmatch
      · rcases List.mem_singleton.mp hb with rfl
        have hf := hall a ha
        have hm : a.staffId = ins.staffId ∨ a.patientId = ins.patientId := by
          simpa using hmatch
        exact fun hov =>
          conflictsWith_eq_false hf hm rfl ⟨hov.1, hov.2⟩
      · rcases List.mem_singleton.mp ha with rfl
        have hf := hall b hb
        have hm : b.staffId = ins.staffId ∨ b.patientId = ins.patientId := by
          rcases hmatch with hmatch | hmatch
          · exact Or.inl hmatch.symm
          · exact Or.inr hmatch.symm
        intro hov
        exact conflictsWith_eq_false hf hm rfl ⟨hov.2, hov.1⟩
      · rcases List.mem_singleton.mp ha with rfl
        rcases List.mem_singleton.mp hb with rfl
        exact absurd rfl hne

theorem applyUpdate_id (u : UpdateAppt) (now : Nat) (a : Appt) :
    (applyUpdate u now a).id = a.id := rfl

theorem updateAppointment_map_id (appts : List Appt) (id : Nat)
    (u : UpdateAppt) (now : Nat) :
    (updateAppointment appts id u now).map Appt.id = appts.map Appt.id := by
  unfold updateAppointment
  rw [List.map_map]
  apply List.map_congr_left
  intro a _
  by_cases hid : a.id = id <;> simp [hid, applyUpdate]

theorem idTruthy_false_of_valid {o : Option Nat}
    (hv : ∀ v, o = some v → 1 ≤ v) (h : idTruthy o = false) : o = none := by
  cases o with
  | none => rfl
  | some v =>
    simp [idTruthy] at h
    have := hv v rfl
    omega

theorem mergeId_eq_getD {o : Option Nat} (hv : ∀ v, o = some v → 1 ≤ v)
    (old : Nat) : mergeId o old = o.getD old := by
  cases o with
  | none => rfl
  | some v =>
    have := hv v rfl
    have hne : ¬(v = 0) := by omega
    simp [mergeId, hne]

theorem updateAppointment_eq_of_find_none {s : List Appt} {id : Nat}
    (h : getAppointment s id = none) (u : UpdateAppt) (now : Nat) :
    updateAppointment s id u now = s := by
  have hall := List.find?_eq_none.mp h
  unfold updateAppointment
  have hpt : ∀ a ∈ s, (if a.id = id then applyUpdate u now a else a) = a := by
    intro a ha
    have hne : ¬(a.id = id) := by simpa using hall a ha
    simp [hne]
  rw [List.map_congr_left hpt]
  simp

theorem timeTruthy_false {o : Option Nat} (h : timeTruthy o = false) :
    o = none := by
  cases o with
  | none => rfl
  | some v => simp [timeTruthy] at h

theorem StrongInv_put (s : List Appt) (id : Nat) (u : UpdateAppt) (now : Nat)
    (hv : ValidUpd u) (h : StrongInv s) : StrongInv (putAppointment s id u now).2 := by
  obtain ⟨hpos, hnd, hpair⟩ := h
  have hpos_upd : ∀ a ∈ updateAppointment s id u now, 1 ≤ a.id := by
    intro a ha
    unfold updateAppointment at ha
    rcases List.mem_map.mp ha with ⟨b, hb, rfl⟩
    by_cases hid : b.id = id
    · rw [if_pos hid, applyUpdate_id]
      exact hpos b hb
    · rw [if_neg hid]
      exact hpos b hb
  have hnd_upd : ((updateAppointment s id u now).map Appt.id).Nodup := by
    rw [updateAppointment_map_id]; exact hnd
  unfold putAppointment
  cases hg : (timeTruthy u.startTime || timeTruthy u.endTime
      || idTruthy u.staffId || idTruthy u.patientId) with
  | false =>
    simp only [hg, Bool.false_eq_true, if_false]
    -- the guard saw no truthy time/staff/patient field: with the FK
    -- validity those fields are absent, so the update leaves id, staff,
    -- patient and interval of every row unchanged
    have hb4 := hg
    simp only [Bool.or_eq_false_iff] at hb4
    obtain ⟨⟨⟨h1, h2⟩, h3⟩, h4⟩ := hb4
    have hst : u.startTime = none := timeTruthy_false h1
    have hen : u.endTime = none := timeTruthy_false h2
    have hsf : u.staffId = none := idTruthy_false_of_valid hv.1 h3
    have hpt : u.patientId = none := idTruthy_false_of_valid hv.2 h4
    refine ⟨hpos_upd, hnd_upd, ?_⟩
    intro a ha b hb' hne hmatch
    unfold updateAppointment at ha hb'
    rcases List.mem_map.mp ha with ⟨a0, ha0, rfl⟩
    rcases List.mem_map.mp hb' with ⟨b0, hb0, rfl⟩
    have hproj : ∀ c : Appt, ((if c.id = id then applyUpdate u now c else c).id = c.id
        ∧ (if c.id = id then applyUpdate u now c else c).staffId = c.staffId
        ∧ (if c.id = id then applyUpdate u now c else c).patientId = c.patientId
        ∧ (if c.id = id then applyUpdate u now c else c).startTime = c.startTime
        ∧ (if c.id = id then applyUpdate u now c else c).endTime = c.endTime) := by
      intro c
      by_cases hid : c.id = id <;> simp [hid, applyUpdate, hst, hen, hsf, hpt]
    obtain ⟨hida, hsa, hpa, hsta, hena⟩ := hproj a0
    obtain ⟨hidb, hsb, hpb, hstb, henb⟩ := hproj b0
    rw [hida, hidb] at hne
    rw [hsa, hsb, hpa, hpb] at hmatch
    rw [hsta, hena, hstb, henb]
    exact hpair a0 ha0 b0 hb0 hne hmatch
  | true =>
    simp only [hg, if_true]
    cases hfind : getAppointment s id with
    | none =>
      simp only [hfind, updateAppointment_eq_of_find_none hfind u now]
      exact ⟨hpos, hnd, hpair⟩
    | some ex =>
      simp only [hfind]
      have hexmem : ex ∈ s := List.mem_of_find?_eq_some hfind
      have hexid : ex.id = id := by
        have := List.find?_some hfind
        simpa using this
      have hidpos : 1 ≤ id := hexid ▸ hpos ex hexmem
      cases hc : checkAppointmentConflicts s
          (mergeId u.staffId ex.staffId) (mergeId u.patientId ex.patientId)
          (mergeTime u.startTime ex.startTime) (mergeTime u.endTime ex.endTime)
          (some id) with
      | true =>
        simp only [hc, if_true]
        exact ⟨hpos, hnd, hpair⟩
      | false =>
        simp only [hc, Bool.false_eq_true, if_false]
        have hall := check_eq_false_iff.mp hc
        have huniq : ∀ a ∈ s, a.id = id → a = ex := by
          intro a ha haid
          exact List.inj_on_of_nodup_map hnd ha hexmem (by rw [haid, hexid])
        have hexcl : ∀ b : Appt, b.id ≠ id → exclClause (some id) b.id = true := by
          intro b hbne
          have : ¬(id = 0) := by omega
          simp [exclClause, this, hbne]
        -- projections of the updated row are the merged check parameters
        have hupd_staff : (applyUpdate u now ex).staffId = mergeId u.staffId ex.staffId := by
          rw [mergeId_eq_getD hv.1]; rfl
        have hupd_pat : (applyUpdate u now ex).patientId = mergeId u.patientId ex.patientId := by
          rw [mergeId_eq_getD hv.2]; rfl
        have hupd_st : (applyUpdate u now ex).startTime = mergeTime u.startTime ex.startTime := rfl
        have hupd_en : (applyUpdate u now ex).endTime = mergeTime u.endTime ex.endTime := rfl
        refine ⟨hpos_upd, hnd_upd, ?_⟩
        intro a ha b hb' hne hmatch
        unfold updateAppointment at ha hb'
        rcases List.mem_map.mp ha with ⟨a0, ha0, rfl⟩
        rcases List.mem_map.mp hb' with ⟨b0, hb0, rfl⟩
        by_cases haid : a0.id = id <;> by_cases hbid : b0.id = id
        · -- both rows are the updated row: impossible, their ids agree
          have e1 : (if a0.id = id then applyUpdate u now a0 else a0)
              = applyUpdate u now ex := by rw [if_pos haid, huniq a0 ha0 haid]
          have e2 : (if b0.id = id then applyUpdate u now b0 else b0)
              = applyUpdate u now ex := by rw [if_pos hbid, huniq b0 hb0 hbid]
          rw [e1, e2] at hne
          exact absurd rfl hne
        · -- a is the updated row, b is untouched
          have e1 : (if a0.id = id then applyUpdate u now a0 else a0)
              = applyUpdate u now ex := by rw [if_pos haid, huniq a0 ha0 haid]
          have e2 : (if b0.id = id then applyUpdate u now b0 else b0) = b0 :=
            if_neg hbid
          rw [e1, e2] at hmatch ⊢
          rw [hupd_staff, hupd_pat] at hmatch
          rw [hupd_st, hupd_en]
          have hfa := hall b0 hb0
          have hm : b0.staffId = mergeId u.staffId ex.staffId
              ∨ b0.patientId = mergeId u.patientId ex.patientId := by
            rcases hmatch with hx | hx
            · exact Or.inl hx.symm
            · exact Or.inr hx.symm
          intro hov
          exact conflictsWith_eq_false hfa hm (hexcl b0 hbid) ⟨hov.2, hov.1⟩
        · -- b is the updated row, a is untouched
          have e1 : (if a0.id = id then applyUpdate u now a0 else a0) = a0 :=
            if_neg haid
          have e2 : (if b0.id = id then applyUpdate u now b0 else b0)
              = applyUpdate u now ex := by rw [if_pos hbid, huniq b0 hb0 hbid]
          rw [e1, e2] at hmatch ⊢
          rw [hupd_staff, hupd_pat] at hmatch
          rw [hupd_st, hupd_en]
          have hfa := hall a0 ha0
          intro hov
          exact conflictsWith_eq_false hfa hmatch (hexcl a0 haid) ⟨hov.1, hov.2⟩
        · -- neither row touched
          have e1 : (if a0.id = id then applyUpdate u now a0 else a0) = a0 :=
            if_neg haid
          have e2 : (if b0.id = id then applyUpdate u now b0 else b0) = b0 :=
            if_neg hbid
          rw [e1, e2] at hne hmatch ⊢
          exact hpair a0 ha0 b0 hb0 hne hmatch

theorem StrongInv_reachable {s : List Appt} (h : Reachable s) : StrongInv s := by
  induction h with
  | empty => refine ⟨?_, ?_, ?_⟩ <;> simp [StrongInv]
  | post s ins now _ ih => exact StrongInv_post s ins now ih
  | put s id u now _ hv ih => exact StrongInv_put s id u now hv ih

theorem conflictsWith_eq_true_iff {sid pid st en : Nat} {excl : Option Nat}
    {a : Appt} :
    conflictsWith sid pid st en excl a = true ↔
      (a.staffId = sid ∨ a.patientId = pid) ∧ a.startTime < en ∧ st < a.endTime
        ∧ exclClause excl a.id = true := by
  simp [conflictsWith, and_assoc]

/-! ## Claim theorems -/

/-- C1: in every state of the appointment table reachable through the
appointment operations (creation via `POST /api/appointments`,
modification via `PUT /api/appointments/:id`), no two distinct
appointments that both have status `scheduled` and the same staff id
have overlapping half-open `[startTime, endTime)` intervals, and no two
`scheduled` appointments with the same patient id have overlapping
intervals. -/
theorem scheduled_no_overlap_of_reachable (s : List Appt) (h : Reachable s) :
    ∀ a ∈ s, ∀ b ∈ s, a ≠ b →
      a.status = "scheduled" → b.status = "scheduled" →
      (a.staffId = b.staffId →
        ¬(a.startTime < b.endTime ∧ b.startTime < a.endTime)) ∧
      (a.patientId = b.patientId →
        ¬(a.startTime < b.endTime ∧ b.startTime < a.endTime)) := by
  obtain ⟨hpos, hnd, hpair⟩ := StrongInv_reachable h
  intro a ha b hb hne _ _
  have hidne : a.id ≠ b.id := by
    intro hid
    exact hne (List.inj_on_of_nodup_map hnd ha hb hid)
  exact ⟨fun hs => hpair a ha b hb hidne (Or.inl hs),
         fun hp => hpair a ha b hb hidne (Or.inr hp)⟩

/-- Concrete booking request: patient 1, staff 1, interval [0, 10). -/
def insW1 : InsertAppt :=
  { patientId := 1, staffId := 1, serviceId := 1
    startTime := 0, endTime := 10, status := "scheduled" }

/-- Concrete booking request: patient 2, staff 1, interval [10, 20). -/
def insW2 : InsertAppt :=
  { patientId := 2, staffId := 1, serviceId := 1
    startTime := 10, endTime := 20, status := "scheduled" }

/-- The state after booking `insW1` and then `insW2` on an empty table. -/
def sW : List Appt :=
  (postAppointment (postAppointment [] insW1 0).2 insW2 0).2

def apptW1 : Appt :=
  { id := 1, patientId := 1, staffId := 1, serviceId := 1
    startTime := 0, endTime := 10, status := "scheduled", updatedAt := 0 }

def apptW2 : Appt :=
  { id := 2, patientId := 2, staffId := 1, serviceId := 1
    startTime := 10, endTime := 20, status := "scheduled", updatedAt := 0 }

theorem scheduled_no_overlap_witness :
    ¬(apptW1.startTime < apptW2.endTime ∧ apptW2.startTime < apptW1.endTime) :=
  (scheduled_no_overlap_of_reachable sW
      (Reachable.post _ insW2 0 (Reachable.post _ insW1 0 Reachable.empty))
      apptW1 (by decide) apptW2 (by decide) (by decide) (by decide) (by decide)).1
    (by decide)

/-- C6: `checkAppointmentConflicts` counts an existing appointment as
overlapping iff `existing.startTime < candidate.endTime` and
`existing.endTime > candidate.startTime` (half-open intersection, plus
the staff-or-patient match and the id exclusion of its WHERE clause);
consequently two back-to-back bookings for the same staff whose
intervals only touch at an endpoint are both accepted. -/
theorem check_iff_halfopen_overlap :
    (∀ (appts : List Appt) (sid pid st en : Nat) (excl : Option Nat),
      checkAppointmentConflicts appts sid pid st en excl = true ↔
        ∃ a ∈ appts, (a.staffId = sid ∨ a.patientId = pid)
          ∧ a.startTime < en ∧ st < a.endTime ∧ exclClause excl a.id = true)
    ∧ (∀ (appts : List Appt) (ins1 ins2 : InsertAppt) (now1 now2 : Nat),
        ins1.endTime = ins2.startTime →
        ins1.staffId = ins2.staffId →
        (∀ a ∈ appts, conflictsWith ins1.staffId ins1.patientId
          ins1.startTime ins1.endTime none a = false) →
        (∀ a ∈ appts, conflictsWith ins2.staffId ins2.patientId
          ins2.startTime ins2.endTime none a = false) →
        (postAppointment appts ins1 now1).1.isCreated = true ∧
        (postAppointment (postAppointment appts ins1 now1).2 ins2 now2).1.isCreated
          = true) := by
  constructor
  · intro appts sid pid st en excl
    simp only [checkAppointmentConflicts, decide_eq_true_eq,
      List.length_pos_iff_exists_mem]
    constructor
    · rintro ⟨a, ha⟩
      rcases List.mem_filter.mp ha with ⟨hmem, hcw⟩
      exact ⟨a, hmem, conflictsWith_eq_true_iff.mp hcw⟩
    · rintro ⟨a, hmem, hprop⟩
      exact ⟨a, List.mem_filter.mpr ⟨hmem, conflictsWith_eq_true_iff.mpr hprop⟩⟩
  · intro appts ins1 ins2 now1 now2 htouch _ h1 h2
    have hc1 : checkAppointmentConflicts appts ins1.staffId ins1.patientId
        ins1.startTime ins1.endTime none = false := check_eq_false_iff.mpr h1
    constructor
    · simp [postAppointment, hc1, PostResult.isCreated]
    · have hstate : (postAppointment appts ins1 now1).2
          = appts ++ [(createAppointment appts ins1 now1).1] := by
        simp [postAppointment, hc1, createAppointment]
      have hc2 : checkAppointmentConflicts (postAppointment appts ins1 now1).2
          ins2.staffId ins2.patientId ins2.startTime ins2.endTime none = false := by
        apply check_eq_false_iff.mpr
        intro a ha
        rw [hstate] at ha
        rcases List.mem_append.mp ha with ha | ha
        · exact h2 a ha
        · rcases List.mem_singleton.mp ha with rfl
          -- the new row ends exactly where the second booking starts
          simp [conflictsWith, createAppointment, htouch]
      generalize hgen : (postAppointment appts ins1 now1).2 = s1 at hc2 ⊢
      simp [postAppointment, hc2, PostResult.isCreated]

theorem check_iff_halfopen_overlap_witness :
    (postAppointment [] insW1 0).1.isCreated = true
    ∧ (postAppointment (postAppointment [] insW1 0).2 insW2 0).1.isCreated
        = true :=
  check_iff_halfopen_overlap.2 [] insW1 insW2 0 0 (by decide) (by decide)
    (by decide) (by decide)

theorem check_eq_true_of_mem {appts : List Appt} {sid pid st en : Nat}
    {excl : Option Nat} {a : Appt} (ha : a ∈ appts)
    (hcw : conflictsWith sid pid st en excl a = true) :
    checkAppointmentConflicts appts sid pid st en excl = true := by
  cases hc : checkAppointmentConflicts appts sid pid st en excl with
  | true => rfl
  | false =>
    have := check_eq_false_iff.mp hc a ha
    rw [hcw] at this
    cases this

/-- C2 counterexample: staff 1's template has no window at all (so the
candidate interval trivially falls outside every window and the
spec-modelled Availability Resolver reports unavailable), yet
`POST /api/appointments` creates and persists the appointment — the
route never consults availability. -/
def tmplEmpty : Nat → List AvailWindow := fun _ => []

def insC2 : InsertAppt :=
  { patientId := 1, staffId := 1, serviceId := 1
    startTime := 3600000, endTime := 5400000, status := "scheduled" }

def apptC2 : Appt :=
  { id := 1, patientId := 1, staffId := 1, serviceId := 1
    startTime := 3600000, endTime := 5400000, status := "scheduled"
    updatedAt := 0 }

theorem availability_not_gated_cex :
    staffUnavailable tmplEmpty [] 0 60 90 insC2.startTime insC2.endTime = true
    ∧ postAppointment [] insC2 0 = (.created apptC2, [apptC2]) := by
  decide

/-- C2 amended: the server-side book operation performs no availability
check; whenever the conflict check passes, the appointment is created
and persisted even if the staff member's template has no containing
window and/or an exclusion overlaps the interval. -/
theorem book_ignores_availability (template : Nat → List AvailWindow)
    (exclusions : List (Nat × Nat)) (day sMin eMin : Nat)
    (appts : List Appt) (ins : InsertAppt) (now : Nat)
    (hunavail : staffUnavailable template exclusions day sMin eMin
      ins.startTime ins.endTime = true)
    (hnoconf : checkAppointmentConflicts appts ins.staffId ins.patientId
      ins.startTime ins.endTime none = false) :
    (postAppointment appts ins now).1.isCreated = true
    ∧ (postAppointment appts ins now).2
        = appts ++ [(createAppointment appts ins now).1] := by
  constructor
  · simp [postAppointment, hnoconf, PostResult.isCreated]
  · simp [postAppointment, hnoconf, createAppointment]

theorem book_ignores_availability_witness :
    (postAppointment [] insC2 0).1.isCreated = true
    ∧ (postAppointment [] insC2 0).2
        = [] ++ [(createAppointment [] insC2 0).1] :=
  book_ignores_availability tmplEmpty [] 0 60 90 [] insC2 0
    (by decide) (by decide)

/-- C3 counterexample: a `cancelled` appointment for staff 1 at [0,100)
still blocks a new booking for the same staff at the overlapping
interval [50,150): `checkAppointmentConflicts` reports a conflict and
the POST is rejected with the table unchanged. -/
def apptC3 : Appt :=
  { id := 1, patientId := 1, staffId := 1, serviceId := 1
    startTime := 0, endTime := 100, status := "cancelled", updatedAt := 0 }

def insC3 : InsertAppt :=
  { patientId := 2, staffId := 1, serviceId := 1
    startTime := 50, endTime := 150, status := "scheduled" }

theorem conflict_counts_cancelled_cex :
    apptC3.status = "cancelled"
    ∧ checkAppointmentConflicts [apptC3] insC3.staffId insC3.patientId
        insC3.startTime insC3.endTime none = true
    ∧ postAppointment [apptC3] insC3 0 = (.conflict, [apptC3]) := by
  decide

/-- Reassign every row's status (used to state status-blindness). -/
def mapStatus (f : Appt → String) (l : List Appt) : List Appt :=
  l.map (fun a => { a with status := f a })

/-- C3 amended: `checkAppointmentConflicts` never reads the `status`
column — its verdict is invariant under arbitrarily reassigning the
statuses of the stored appointments, so `completed`, `cancelled` and
`no_show` appointments block an overlapping booking exactly as
`scheduled` ones do. -/
theorem check_status_blind (f : Appt → String) (appts : List Appt)
    (sid pid st en : Nat) (excl : Option Nat) :
    checkAppointmentConflicts (mapStatus f appts) sid pid st en excl
      = checkAppointmentConflicts appts sid pid st en excl := by
  unfold checkAppointmentConflicts mapStatus
  rw [List.filter_map, List.length_map]
  have hfe : ∀ x ∈ appts,
      (conflictsWith sid pid st en excl ∘ fun a => { a with status := f a }) x
        = conflictsWith sid pid st en excl x := fun x _ => rfl
  rw [List.filter_congr hfe]

/-- C4 counterexample: cancelling the already-`cancelled` appointment 1
via `PUT /api/appointments/1 {status: "cancelled"}` succeeds (HTTP 200
with the updated row); no `InvalidTransition` rejection exists in the
code. -/
def statusOnly (st : String) : UpdateAppt :=
  { patientId := none, staffId := none, serviceId := none
    startTime := none, endTime := none, status := some st }

theorem cancel_cancelled_succeeds_cex :
    apptC3.status = "cancelled"
    ∧ putAppointment [apptC3] 1 (statusOnly "cancelled") 5
        = (.updated, [{ apptC3 with status := "cancelled", updatedAt := 5 }]) := by
  decide

/-- C4 amended: the PUT handler enforces no status state machine: a
status-only update bypasses even the conflict check and is always
applied, whatever the current status — in particular cancelling an
already-cancelled appointment returns success, and terminal statuses
are freely overwritten. -/
theorem status_update_always_applies (appts : List Appt) (id : Nat)
    (st : String) (now : Nat) :
    putAppointment appts id (statusOnly st) now
      = (.updated, appts.map (fun a => if a.id = id then
          { a with status := st, updatedAt := now } else a)) := by
  unfold putAppointment
  rw [if_neg (by simp [statusOnly, timeTruthy, idTruthy])]
  simp only [Prod.mk.injEq, true_and]
  unfold updateAppointment
  apply List.map_congr_left
  intro a _
  by_cases h : a.id = id <;> simp [h, applyUpdate, statusOnly]

/-- C5 counterexample: a group service with capacity 3 — yet the second
distinct-patient booking for the same staff at the identical interval
already fails with a conflict, because `checkAppointmentConflicts`
never looks at the service, its `capacity` or `isGroup`. -/
def svcC5 : ServiceRow :=
  { id := 1, name := "group session", description := none, categoryId := none
    duration := 60, capacity := 3, price := none, isGroup := true
    isActive := true, rules := none, createdAt := 0, updatedAt := 0 }

def insC5a : InsertAppt :=
  { patientId := 1, staffId := 1, serviceId := 1
    startTime := 100, endTime := 160, status := "scheduled" }

def insC5b : InsertAppt :=
  { patientId := 2, staffId := 1, serviceId := 1
    startTime := 100, endTime := 160, status := "scheduled" }

theorem group_capacity_second_booking_cex :
    svcC5.capacity = 3 ∧ svcC5.isGroup = true
    ∧ svcC5.id = insC5a.serviceId ∧ svcC5.id = insC5b.serviceId
    ∧ insC5a.patientId ≠ insC5b.patientId
    ∧ (postAppointment [] insC5a 0).1.isCreated = true
    ∧ postAppointment (postAppointment [] insC5a 0).2 insC5b 0
        = (.conflict, (postAppointment [] insC5a 0).2) := by
  decide

/-- C5 amended: capacity is never consulted: for any service row
(group or not, any capacity), a booking whose interval overlaps an
existing appointment of the same staff fails with a conflict and
persists nothing — so at most one appointment ever occupies a staff
interval, and the second distinct-patient booking at the identical
interval already fails. -/
theorem overlap_conflicts_regardless_of_capacity
    (svc : ServiceRow) (appts : List Appt) (ins : InsertAppt) (now : Nat)
    (a : Appt) (hsvc : svc.id = ins.serviceId) (ha : a ∈ appts)
    (hstaff : a.staffId = ins.staffId)
    (hov : a.startTime < ins.endTime ∧ ins.startTime < a.endTime) :
    postAppointment appts ins now = (.conflict, appts) := by
  have hcw : conflictsWith ins.staffId ins.patientId ins.startTime
      ins.endTime none a = true :=
    conflictsWith_eq_true_iff.mpr ⟨Or.inl hstaff, hov.1, hov.2, rfl⟩
  simp [postAppointment, check_eq_true_of_mem ha hcw]

def apptC5 : Appt :=
  { id := 1, patientId := 1, staffId := 1, serviceId := 1
    startTime := 100, endTime := 160, status := "scheduled", updatedAt := 0 }

theorem overlap_conflicts_witness :
    postAppointment [apptC5] insC5b 0 = (.conflict, [apptC5]) :=
  overlap_conflicts_regardless_of_capacity svcC5 [apptC5] insC5b 0 apptC5
    (by decide) (by decide) (by decide) (by decide)

/-- C7 counterexample: appointment 1 spans [0,100), which intersects
the requested range [50,150) — but `getAppointmentsByDateRange 50 150`
returns the empty list, because the query filters on `startTime`
membership only and 0 < 50. -/
def apptC7 : Appt :=
  { id := 1, patientId := 1, staffId := 1, serviceId := 1
    startTime := 0, endTime := 100, status := "scheduled", updatedAt := 0 }

theorem range_query_misses_straddling_cex :
    (apptC7.startTime < 150 ∧ 50 < apptC7.endTime)
    ∧ getAppointmentsByDateRange [apptC7] 50 150 = [] := by
  decide

/-- C7 amended: `getAppointmentsByDateRange` returns exactly the
appointments whose `startTime` lies in the closed range
`[startDate, endDate]` (interval intersection is not tested), ordered
by `startTime` ascending; the by-staff and by-patient queries ignore
any date range and return all of that staff's/patient's appointments
ordered by `startTime` descending; an empty match yields the empty
list rather than an error. -/
theorem calendar_query_characterization :
    (∀ (appts : List Appt) (s e : Nat) (a : Appt),
      a ∈ getAppointmentsByDateRange appts s e ↔
        a ∈ appts ∧ s ≤ a.startTime ∧ a.startTime ≤ e)
    ∧ (∀ (appts : List Appt) (s e : Nat),
        List.Sorted byStartAsc (getAppointmentsByDateRange appts s e))
    ∧ (∀ (appts : List Appt) (sid : Nat) (a : Appt),
        a ∈ getAppointmentsByStaff appts sid ↔ a ∈ appts ∧ a.staffId = sid)
    ∧ (∀ (appts : List Appt) (sid : Nat),
        List.Sorted byStartDesc (getAppointmentsByStaff appts sid))
    ∧ (∀ (appts : List Appt) (pid : Nat) (a : Appt),
        a ∈ getAppointmentsByPatient appts pid ↔ a ∈ appts ∧ a.patientId = pid)
    ∧ (∀ (appts : List Appt) (pid : Nat),
        List.Sorted byStartDesc (getAppointmentsByPatient appts pid))
    ∧ (∀ s e : Nat, getAppointmentsByDateRange [] s e = [])
    ∧ (∀ sid : Nat, getAppointmentsByStaff [] sid = [])
    ∧ (∀ pid : Nat, getAppointmentsByPatient [] pid = []) := by
  refine ⟨?_, ?_, ?_, ?_, ?_, ?_, ?_, ?_, ?_⟩
  · intro appts s e a
    rw [getAppointmentsByDateRange, (List.perm_insertionSort _ _).mem_iff,
      List.mem_filter]
    simp [and_assoc]
  · intro appts s e
    exact List.sorted_insertionSort byStartAsc _
  · intro appts sid a
    rw [getAppointmentsByStaff, (List.perm_insertionSort _ _).mem_iff,
      List.mem_filter]
    simp
  · intro appts sid
    exact List.sorted_insertionSort byStartDesc _
  · intro appts pid a
    rw [getAppointmentsByPatient, (List.perm_insertionSort _ _).mem_iff,
      List.mem_filter]
    simp
  · intro appts pid
    exact List.sorted_insertionSort byStartDesc _
  · intro s e; rfl
  · intro sid; rfl
  · intro pid; rfl

/-- C8: the PUT handler passes the appointment's own id as `excludeId`,
and `checkAppointmentConflicts` drops every row with that id from the
conflict search (the id is a serial, hence nonzero and truthy); so a
reschedule whose new interval overlaps only the appointment's own
previous slot is applied, never rejected as a conflict. -/
theorem reschedule_excludes_own_row (s : List Appt) (id : Nat)
    (u : UpdateAppt) (now : Nat) (ex : Appt)
    (hfind : getAppointment s id = some ex)
    (hid : id ≠ 0)
    (hg : (timeTruthy u.startTime || timeTruthy u.endTime
        || idTruthy u.staffId || idTruthy u.patientId) = true)
    (hothers : ∀ a ∈ s, a.id ≠ id →
      ¬((a.staffId = mergeId u.staffId ex.staffId
          ∨ a.patientId = mergeId u.patientId ex.patientId)
        ∧ a.startTime < mergeTime u.endTime ex.endTime
        ∧ mergeTime u.startTime ex.startTime < a.endTime)) :
    putAppointment s id u now = (.updated, updateAppointment s id u now) := by
  have hc : checkAppointmentConflicts s
      (mergeId u.staffId ex.staffId) (mergeId u.patientId ex.patientId)
      (mergeTime u.startTime ex.startTime) (mergeTime u.endTime ex.endTime)
      (some id) = false := by
    apply check_eq_false_iff.mpr
    intro a ha
    apply Bool.eq_false_iff.mpr
    intro htrue
    rcases conflictsWith_eq_true_iff.mp htrue with ⟨hm, h1, h2, hexcl⟩
    by_cases haid : a.id = id
    · -- the appointment's own row is excluded by id
      simp [exclClause, hid, haid] at hexcl
    · exact hothers a ha haid ⟨hm, h1, h2⟩
  unfold putAppointment
  rw [if_pos hg, hfind]
  simp [hc]

/-- Appointment 1 occupies [0,100); the reschedule moves it to [50,150),
an interval overlapping only its own previous slot. -/
def apptC8 : Appt :=
  { id := 1, patientId := 1, staffId := 1, serviceId := 1
    startTime := 0, endTime := 100, status := "scheduled", updatedAt := 0 }

def updC8 : UpdateAppt :=
  { patientId := none, staffId := none, serviceId := none
    startTime := some 50, endTime := some 150, status := none }

theorem reschedule_excludes_own_row_witness :
    putAppointment [apptC8] 1 updC8 7
      = (.updated, updateAppointment [apptC8] 1 updC8 7) :=
  reschedule_excludes_own_row [apptC8] 1 updC8 7 apptC8
    (by decide) (by decide) (by decide) (by decide)

/-- C9 counterexample: the service referenced by the booking has
duration 30 minutes, but the POSTed body carries `endTime = 999` ms
(≠ startTime + 30·60000); the server persists it unchanged — the
`end = start + duration` computation lives only in the client form. -/
def svcC9 : ServiceRow :=
  { id := 1, name := "physio", description := none, categoryId := none
    duration := 30, capacity := 1, price := none, isGroup := false
    isActive := true, rules := none, createdAt := 0, updatedAt := 0 }

def insC9 : InsertAppt :=
  { patientId := 1, staffId := 1, serviceId := 1
    startTime := 0, endTime := 999, status := "scheduled" }

def apptC9 : Appt :=
  { id := 1, patientId := 1, staffId := 1, serviceId := 1
    startTime := 0, endTime := 999, status := "scheduled", updatedAt := 0 }

theorem server_accepts_any_endtime_cex :
    svcC9.id = insC9.serviceId ∧ svcC9.duration = 30
    ∧ insC9.endTime ≠ insC9.startTime + svcC9.duration * 60000
    ∧ postAppointment [] insC9 0 = (.created apptC9, [apptC9]) := by
  decide

/-- C9 amended: the `end = start + duration` rule is enforced only by
the client booking form (`BookingModal.onSubmit` computes
`endTime = startTime + (service?.duration || 60) * 60000`); the server
book operation persists whatever `endTime` the request supplies, with
no validation against the service duration. -/
theorem client_endtime_and_server_passthrough :
    (∀ (startMs : Nat) (services : List ServiceRow) (sid : Nat)
      (svc : ServiceRow),
      services.find? (fun s => s.id = sid) = some svc → svc.duration ≠ 0 →
      clientEndTime startMs services sid = startMs + svc.duration * 60000)
    ∧ (∀ (appts : List Appt) (ins : InsertAppt) (now : Nat),
        checkAppointmentConflicts appts ins.staffId ins.patientId
          ins.startTime ins.endTime none = false →
        (postAppointment appts ins now).2
            = appts ++ [(createAppointment appts ins now).1]
          ∧ (createAppointment appts ins now).1.endTime = ins.endTime) := by
  constructor
  · intro startMs services sid svc hfind hdur
    unfold clientEndTime
    rw [hfind]
    simp [hdur]
  · intro appts ins now hnoconf
    constructor
    · simp [postAppointment, hnoconf, createAppointment]
    · rfl

theorem client_endtime_witness :
    clientEndTime 1000 [svcC9] 1 = 1000 + 30 * 60000
    ∧ (postAppointment [] insC9 0).2
        = [] ++ [(createAppointment [] insC9 0).1] :=
  ⟨client_endtime_and_server_passthrough.1 1000 [svcC9] 1 svcC9
      (by decide) (by decide),
   (client_endtime_and_server_passthrough.2 [] insC9 0 (by decide)).1⟩

theorem mem_getAllStaff_iff {db : DB} {r : StaffRow} :
    r ∈ getAllStaff db ↔ r ∈ db.staffTable ∧ r.isActive = true := by
  rw [getAllStaff, (List.perm_insertionSort _ _).mem_iff, List.mem_filter]

theorem mem_getAllPatients_iff {db : DB} {r : PatientRow} :
    r ∈ getAllPatients db ↔ r ∈ db.patientTable ∧ r.isActive = true := by
  rw [getAllPatients, (List.perm_insertionSort _ _).mem_iff, List.mem_filter]

theorem mem_getAllServices_iff {db : DB} {r : ServiceRow} :
    r ∈ getAllServices db ↔ r ∈ db.serviceTable ∧ r.isActive = true := by
  rw [getAllServices, (List.perm_insertionSort _ _).mem_iff, List.mem_filter]

/-- C10: `deleteStaff`, `deletePatient` and `deleteService` are soft
deletes: they only clear the targeted rows' `isActive` flag (every
other column, including `updatedAt`, is untouched), leave every other
row and the whole appointment table (and the other entity tables)
unchanged, and afterwards the entity no longer appears in
`getAllStaff` / `getAllPatients` / `getAllServices`, each of which
returns exactly the `isActive = true` rows. -/
theorem soft_delete_frame (db : DB) (id : Nat) :
    ((deleteStaff db id).patientTable = db.patientTable
      ∧ (deleteStaff db id).serviceTable = db.serviceTable
      ∧ (deleteStaff db id).appointmentTable = db.appointmentTable
      ∧ (deletePatient db id).staffTable = db.staffTable
      ∧ (deletePatient db id).serviceTable = db.serviceTable
      ∧ (deletePatient db id).appointmentTable = db.appointmentTable
      ∧ (deleteService db id).staffTable = db.staffTable
      ∧ (deleteService db id).patientTable = db.patientTable
      ∧ (deleteService db id).appointmentTable = db.appointmentTable)
    ∧ (∀ r ∈ db.staffTable, r.id ≠ id → r ∈ (deleteStaff db id).staffTable)
    ∧ (∀ r ∈ (deleteStaff db id).staffTable, ∃ r0 ∈ db.staffTable,
        r.id = r0.id ∧ r.userId = r0.userId ∧ r.firstName = r0.firstName
          ∧ r.lastName = r0.lastName ∧ r.email = r0.email
          ∧ r.phone = r0.phone ∧ r.role = r0.role
          ∧ r.availability = r0.availability ∧ r.createdAt = r0.createdAt
          ∧ r.updatedAt = r0.updatedAt
          ∧ r.isActive = (if r0.id = id then false else r0.isActive))
    ∧ (∀ r ∈ db.patientTable, r.id ≠ id → r ∈ (deletePatient db id).patientTable)
    ∧ (∀ r ∈ (deletePatient db id).patientTable, ∃ r0 ∈ db.patientTable,
        r.id = r0.id ∧ r.firstName = r0.firstName ∧ r.lastName = r0.lastName
          ∧ r.email = r0.email ∧ r.phone = r0.phone
          ∧ r.dateOfBirth = r0.dateOfBirth ∧ r.address = r0.address
          ∧ r.insuranceInfo = r0.insuranceInfo
          ∧ r.medicalHistory = r0.medicalHistory
          ∧ r.createdAt = r0.createdAt ∧ r.updatedAt = r0.updatedAt
          ∧ r.isActive = (if r0.id = id then false else r0.isActive))
    ∧ (∀ r ∈ db.serviceTable, r.id ≠ id → r ∈ (deleteService db id).serviceTable)
    ∧ (∀ r ∈ (deleteService db id).serviceTable, ∃ r0 ∈ db.serviceTable,
        r.id = r0.id ∧ r.name = r0.name ∧ r.description = r0.description
          ∧ r.categoryId = r0.categoryId ∧ r.duration = r0.duration
          ∧ r.capacity = r0.capacity ∧ r.price = r0.price
          ∧ r.isGroup = r0.isGroup ∧ r.rules = r0.rules
          ∧ r.createdAt = r0.createdAt ∧ r.updatedAt = r0.updatedAt
          ∧ r.isActive = (if r0.id = id then false else r0.isActive))
    ∧ (∀ r ∈ getAllStaff (deleteStaff db id), r.id ≠ id)
    ∧ (∀ r ∈ getAllPatients (deletePatient db id), r.id ≠ id)
    ∧ (∀ r ∈ getAllServices (deleteService db id), r.id ≠ id)
    ∧ (∀ r : StaffRow, r ∈ getAllStaff db ↔ r ∈ db.staffTable ∧ r.isActive = true)
    ∧ (∀ r : PatientRow,
        r ∈ getAllPatients db ↔ r ∈ db.patientTable ∧ r.isActive = true)
    ∧ (∀ r : ServiceRow,
        r ∈ getAllServices db ↔ r ∈ db.serviceTable ∧ r.isActive = true) := by
  refine ⟨⟨rfl, rfl, rfl, rfl, rfl, rfl, rfl, rfl, rfl⟩,
    ?_, ?_, ?_, ?_, ?_, ?_, ?_, ?_, ?_,
    fun r => mem_getAllStaff_iff, fun r => mem_getAllPatients_iff,
    fun r => mem_getAllServices_iff⟩
  · intro r hr hne
    exact List.mem_map.mpr ⟨r, hr, if_neg hne⟩
  · intro r hr
    rcases List.mem_map.mp hr with ⟨r0, hr0, heq⟩
    refine ⟨r0, hr0, ?_⟩
    by_cases h0 : r0.id = id <;> rw [← heq] <;> simp [h0]
  · intro r hr hne
    exact List.mem_map.mpr ⟨r, hr, if_neg hne⟩
  · intro r hr
    rcases List.mem_map.mp hr with ⟨r0, hr0, heq⟩
    refine ⟨r0, hr0, ?_⟩
    by_cases h0 : r0.id = id <;> rw [← heq] <;> simp [h0]
  · intro r hr hne
    exact List.mem_map.mpr ⟨r, hr, if_neg hne⟩
  · intro r hr
    rcases List.mem_map.mp hr with ⟨r0, hr0, heq⟩
    refine ⟨r0, hr0, ?_⟩
    by_cases h0 : r0.id = id <;> rw [← heq] <;> simp [h0]
  · intro r hr
    rcases mem_getAllStaff_iff.mp hr with ⟨hmem, hact⟩
    rcases List.mem_map.mp hmem with ⟨r0, hr0, heq⟩
    by_cases h0 : r0.id = id
    · rw [← heq, if_pos h0] at hact
      cases hact
    · rw [← heq, if_neg h0]
      exact h0
  · intro r hr
    rcases mem_getAllPatients_iff.mp hr with ⟨hmem, hact⟩
    rcases List.mem_map.mp hmem with ⟨r0, hr0, heq⟩
    by_cases h0 : r0.id = id
    · rw [← heq, if_pos h0] at hact
      cases hact
    · rw [← heq, if_neg h0]
      exact h0
  · intro r hr
    rcases mem_getAllServices_iff.mp hr with ⟨hmem, hact⟩
    rcases List.mem_map.mp hmem with ⟨r0, hr0, heq⟩
    by_cases h0 : r0.id = id
    · rw [← heq, if_pos h0] at hact
      cases hact
    · rw [← heq, if_neg h0]
      exact h0

def staffW : StaffRow :=
  { id := 1, userId := some 1, firstName := "Ada", lastName := "L"
    email := "ada@example.com", phone := none, role := "therapist"
    isActive := true, availability := none, createdAt := 0, updatedAt := 0 }

def dbW : DB :=
  { staffTable := [staffW], patientTable := [], serviceTable := []
    appointmentTable := [apptC7] }

theorem soft_delete_frame_witness :
    (deleteStaff dbW 1).appointmentTable = dbW.appointmentTable
    ∧ ∀ r ∈ getAllStaff (deleteStaff dbW 1), r.id ≠ 1 :=
  ⟨(soft_delete_frame dbW 1).1.2.2.1,
   (soft_delete_frame dbW 1).2.2.2.2.2.2.2.1⟩

end SBB
